import Mathlib

/-!
# Verification of the json-ipc-server connection multiplexer

Shallow embedding of `src/lib.rs`: the per-connection buffered I/O state
machine (`SocketConnection::readable` / `SocketConnection::writable`), the
accept path (`RpcServer::accept`) and the event dispatcher
(`Handler::ready for RpcServer`).

Modelling conventions:
* Bytes are `Nat`; a mio `ByteBuf` (read side) is a list of bytes plus a
  cursor; a `MutByteBuf` is the list of bytes accumulated so far.
* The outcome of a non-blocking socket call is an explicit oracle argument:
  `TryReadResult` for `try_read_buf` (`Ok(None)` = would-block,
  `Ok(Some(r))` = `r` bytes appended — `r = 0` is an orderly remote close —
  and `Err`), `TryWriteResult` for `try_write_buf` (`Ok(None)` = would-block,
  `Ok(Some(n))` = `n` bytes of the remaining slice written, and `Err`).
* `handle_request` runs on the decoded UTF-8 text; decoding is modelled by a
  validity predicate `utf8Valid` on the raw bytes (in
  `String::from_utf8(..).map(..)` the closure runs only on valid input, and
  the `Result` itself is discarded), and the handler as a function from the
  byte sequence to the optional response bytes.
* A Rust panic (`Option::unwrap` on `None`, `slab` indexing of an empty
  slot, `expect`) is `Except.error`; the registration calls issued to the
  mio `EventLoop` are collected as an explicit list of `RegisterOp` values.
-/

/-- The mio `EventSet`: flags for readable / writable / hangup interest. -/
structure EventSet where
  is_readable : Bool
  is_writable : Bool
  is_hup : Bool
deriving DecidableEq, Repr

/-- The singleton set `EventSet::readable()`. -/
def EventSet.readableSet : EventSet := ⟨true, false, false⟩

/-- The singleton set `EventSet::writable()`. -/
def EventSet.writableSet : EventSet := ⟨false, true, false⟩

/-- The singleton set `EventSet::hup()`. -/
def EventSet.hupSet : EventSet := ⟨false, false, true⟩

/-- The set union performed by `EventSet::insert`. -/
def EventSet.insert (a b : EventSet) : EventSet :=
  ⟨a.is_readable || b.is_readable, a.is_writable || b.is_writable, a.is_hup || b.is_hup⟩

/-- The set difference performed by `EventSet::remove`. -/
def EventSet.remove (a b : EventSet) : EventSet :=
  ⟨a.is_readable && !b.is_readable, a.is_writable && !b.is_writable, a.is_hup && !b.is_hup⟩

/-- The mio polling options. The code always passes
`PollOpt::edge() | PollOpt::oneshot()`. -/
structure PollOpt where
  edge : Bool
  oneshot : Bool
deriving DecidableEq, Repr

/-- The option value `PollOpt::edge() | PollOpt::oneshot()`. -/
def PollOpt.edgeOneshot : PollOpt := ⟨true, true⟩

/-- Which `EventLoop` call a `RegisterOp` records. `deregister` is included
in the vocabulary so that theorems can state that the code never issues it. -/
inductive RegKind where
  | register
  | reregister
  | deregister
deriving DecidableEq, Repr

/-- One registration call issued to the mio `EventLoop` for some socket:
the token, the interest set, the polling options and which call it was. -/
structure RegisterOp where
  token : Nat
  interest : EventSet
  opts : PollOpt
  kind : RegKind
deriving DecidableEq, Repr

/-- A bytes `ByteBuf` in read mode: backing data plus a cursor of bytes
already consumed (flushed). -/
structure ByteBuf where
  data : List Nat
  pos : Nat
deriving DecidableEq, Repr

/-- `ByteBuf::from_slice`: a fresh read-mode buffer over the given bytes. -/
def ByteBuf.from_slice (bs : List Nat) : ByteBuf := ⟨bs, 0⟩

/-- The bytes of the buffer not yet consumed. -/
def ByteBuf.remaining (b : ByteBuf) : List Nat := b.data.drop b.pos

/-- Advance the cursor by `n` consumed bytes, as `try_write_buf` does after a
successful write of `n` bytes. -/
def ByteBuf.advance (b : ByteBuf) (n : Nat) : ByteBuf := ⟨b.data, b.pos + n⟩

/-- Outcome of `UnixStream::try_read_buf`: `Ok(None)` (would-block),
`Ok(Some(r))` with the `r` bytes that were appended to the buffer
(`readBytes []` is the 0-byte read of an orderly remote close), or `Err`. -/
inductive TryReadResult where
  | wouldBlock
  | readBytes (bs : List Nat)
  | ioError
deriving DecidableEq, Repr

/-- Outcome of `UnixStream::try_write_buf`: `Ok(None)` (would-block),
`Ok(Some(n))` with `n` the number of bytes written from the front of the
remaining slice, or `Err`. -/
inductive TryWriteResult where
  | wouldBlock
  | wroteBytes (n : Nat)
  | ioError
deriving DecidableEq, Repr

/-- The `SocketConnection` struct: optional pending write buffer `buf`,
optional read-accumulation buffer `mut_buf`, the slab token, and the
current interest set. The socket handle itself carries no data the model
needs. -/
structure SocketConnection where
  buf : Option ByteBuf
  mut_buf : Option (List Nat)
  token : Option Nat
  interest : EventSet
deriving DecidableEq, Repr

/-- `SocketConnection::new`: no write buffer, an empty 2048-capacity read
buffer, no token yet, and interest `EventSet::hup()`. -/
def SocketConnection.new : SocketConnection :=
  ⟨none, some [], none, EventSet.hupSet⟩

/-- `SocketConnection::writable`: take the write buffer (`unwrap` panics if
absent), attempt a non-blocking write, and in every branch fall through to
`reregister(.., token.unwrap(), interest, edge | oneshot)`.
`Ok(None)`: restore the buffer and add writable interest. `Ok(Some(r))`:
flip the buffer into a fresh empty read buffer (whatever was left unsent is
discarded), add readable and drop writable interest. `Err`: nothing — the
taken buffer is not restored and the error is otherwise ignored. -/
def SocketConnection.writable (c : SocketConnection) (w : TryWriteResult) :
    Except String (SocketConnection × RegisterOp) :=
  match c.buf with
  | none => .error "called Option::unwrap() on a None value"
  | some b =>
    let c1 : SocketConnection :=
      match w with
      | .wouldBlock =>
        { c with buf := some b, interest := c.interest.insert EventSet.writableSet }
      | .wroteBytes _ =>
        { c with
          buf := none
          mut_buf := some []
          interest := (c.interest.insert EventSet.readableSet).remove EventSet.writableSet }
      | .ioError =>
        { c with buf := none }
    match c.token with
    | none => .error "called Option::unwrap() on a None value"
    | some t => .ok (c1, ⟨t, c1.interest, PollOpt.edgeOneshot, RegKind.reregister⟩)

/-- `SocketConnection::readable`: take the read buffer (`unwrap` panics if
absent), attempt a non-blocking read, and in every branch fall through to
`reregister(.., token.unwrap(), interest, edge | oneshot)`.
`Ok(None)`: restore the read buffer, interest unchanged. `Ok(Some(r))`
(including `r = 0`): decode the accumulated bytes; on valid UTF-8 submit
them to `handle_request` and, if it returns a response, install it as the
write buffer; in every case drop readable and add writable interest, and
leave the taken read buffer unrestored. `Err`: drop readable interest,
read buffer unrestored, error otherwise ignored. -/
def SocketConnection.readable (c : SocketConnection) (r : TryReadResult)
    (utf8Valid : List Nat → Bool) (handle_request : List Nat → Option (List Nat)) :
    Except String (SocketConnection × RegisterOp) :=
  match c.mut_buf with
  | none => .error "called Option::unwrap() on a None value"
  | some mb =>
    let c1 : SocketConnection :=
      match r with
      | .wouldBlock =>
        { c with mut_buf := some mb }
      | .readBytes bs =>
        let acc := mb ++ bs
        let newBuf : Option ByteBuf :=
          if utf8Valid acc then
            match handle_request acc with
            | some resp => some (ByteBuf.from_slice resp)
            | none => c.buf
          else c.buf
        { c with
          buf := newBuf
          mut_buf := none
          interest := (c.interest.remove EventSet.readableSet).insert EventSet.writableSet }
      | .ioError =>
        { c with mut_buf := none, interest := c.interest.remove EventSet.readableSet }
    match c.token with
    | none => .error "called Option::unwrap() on a None value"
    | some t => .ok (c1, ⟨t, c1.interest, PollOpt.edgeOneshot, RegKind.reregister⟩)

/-- The token `SERVER = Token(0)` reserved for the listening socket. -/
def SERVER : Nat := 0

/-- Index of the first vacant slot of a slot list, if any. -/
def firstVacantIdx {α : Type} : List (Option α) → Option Nat
  | [] => none
  | none :: _ => some 0
  | some _ :: rest => (firstVacantIdx rest).map (· + 1)

/-- Insert into the connection slab (`Slab<SocketConnection, Token>` created
with `new_starting_at(Token(1), 8)`): slot `i` holds the connection for
`Token(i + 1)`; insertion takes the first vacant slot, a fresh slot
otherwise. -/
def slabInsert (l : List (Option SocketConnection)) (c : SocketConnection) :
    List (Option SocketConnection) × Nat :=
  match firstVacantIdx l with
  | some i => (l.set i (some c), i + 1)
  | none => (l ++ [some c], l.length + 1)

/-- The `RpcServer` struct; the listening socket carries no data the model
needs and the `io_handler` is passed explicitly to the step functions. -/
structure RpcServer where
  connections : List (Option SocketConnection)
deriving DecidableEq, Repr

/-- The slab lookup performed by `RpcServer::connection` via
`&mut self.connections[tok]`; `none` is the vacant / out-of-range case, on
which the Rust indexing panics. -/
def RpcServer.connection (s : RpcServer) (tok : Nat) : Option SocketConnection :=
  if tok = SERVER then none
  else (s.connections.getD (tok - 1) none)

/-- Write back the (mutated) connection for a token, modelling the `&mut`
access of `RpcServer::connection`. -/
def RpcServer.update (s : RpcServer) (tok : Nat) (c : SocketConnection) : RpcServer :=
  ⟨s.connections.set (tok - 1) (some c)⟩

/-- `RpcServer::accept`: `self.socket.accept().unwrap().unwrap()` panics when
no connection is pending (`Ok(None)`); otherwise a fresh `SocketConnection`
is inserted into the slab, its `token` field is set, and its socket is
registered with the event loop for `EventSet::readable()` with
`edge | oneshot`. No call re-arms the listener's own `SERVER`
registration. -/
def RpcServer.accept (s : RpcServer) (pending : Option Unit) :
    Except String (RpcServer × List RegisterOp) :=
  match pending with
  | none => .error "called Option::unwrap() on a None value"
  | some _ =>
    let conn := SocketConnection.new
    let inserted := slabInsert s.connections conn
    let tok := inserted.2
    let tbl := inserted.1.set (tok - 1) (some { conn with token := some tok })
    .ok (⟨tbl⟩, [⟨tok, EventSet.readableSet, PollOpt.edgeOneshot, RegKind.register⟩])

/-- `Handler::ready for RpcServer`: if the delivered events are readable,
dispatch `SERVER` to `accept` and any other token to
`connection_readable` (slab indexing panics on a vacant slot, and the
`io::Result` is `unwrap`ped); then, if the events are writable, dispatch
non-`SERVER` tokens to `connection_writable` on the updated state. A
delivery that is neither readable nor writable (a pure hangup) matches no
branch and leaves the server untouched. The `RegisterOp` lists of the two
phases are concatenated. -/
def RpcServer.ready (s : RpcServer) (token : Nat) (events : EventSet)
    (pending : Option Unit) (r : TryReadResult) (w : TryWriteResult)
    (utf8Valid : List Nat → Bool) (handle_request : List Nat → Option (List Nat)) :
    Except String (RpcServer × List RegisterOp) :=
  let phase1 : Except String (RpcServer × List RegisterOp) :=
    if events.is_readable then
      if token = SERVER then s.accept pending
      else
        match s.connection token with
        | none => .error "index out of bounds: vacant slab slot"
        | some c =>
          match c.readable r utf8Valid handle_request with
          | .error e => .error e
          | .ok (c1, op) => .ok (s.update token c1, [op])
    else .ok (s, [])
  match phase1 with
  | .error e => .error e
  | .ok (s1, ops1) =>
    if events.is_writable then
      if token = SERVER then .ok (s1, ops1)
      else
        match s1.connection token with
        | none => .error "index out of bounds: vacant slab slot"
        | some c =>
          match c.writable w with
          | .error e => .error e
          | .ok (c2, op) => .ok (s1.update token c2, ops1 ++ [op])
    else .ok (s1, ops1)

/-- The server state produced by `RpcServer::start`: a slab
`new_starting_at(Token(1), 8)` with its 8 reserved slots vacant. The
listening socket itself is registered for readable with `edge | oneshot`. -/
def RpcServer.start : RpcServer := ⟨List.replicate 8 none⟩

/-- One readiness delivery of the event loop: the token it is for and the
ready event set. -/
structure DeliveredEvent where
  token : Nat
  events : EventSet
deriving DecidableEq, Repr

/-- The socket-level outcomes consumed while processing one delivery:
whether a connection is pending on the listener, and the outcomes of the
non-blocking read and write calls. -/
structure IoOracle where
  pending : Option Unit
  r : TryReadResult
  w : TryWriteResult

/-- The event loop state used to express mio's edge-triggered one-shot
discipline for the listening socket: `listenerArmed` records whether the
`SERVER` registration is currently armed. A delivery for `SERVER` consumes
the arming; only an explicit `RegisterOp` for `SERVER` re-arms it. -/
structure LoopState where
  server : RpcServer
  listenerArmed : Bool

/-- Whether a batch of registration calls re-arms the listener. -/
def rearmsListener (ops : List RegisterOp) : Bool :=
  ops.any fun op => op.token == SERVER

/-- Process one readiness delivery: run `Handler::ready` and update the
listener's arming per one-shot semantics (a `SERVER` delivery disarms the
registration, and it is re-armed only by an explicit registration call for
`SERVER` among the emitted operations). -/
def stepLoop (utf8Valid : List Nat → Bool) (handle_request : List Nat → Option (List Nat))
    (st : LoopState) (ev : DeliveredEvent) (o : IoOracle) : Except String LoopState :=
  match st.server.ready ev.token ev.events o.pending o.r o.w utf8Valid handle_request with
  | .error e => .error e
  | .ok (s', ops) =>
    .ok ⟨s', if ev.token == SERVER then rearmsListener ops else st.listenerArmed⟩

/-- A run of the event loop obeying one-shot delivery for the listener: each
`SERVER` delivery requires the listener to be armed at that point. -/
inductive GuardedRun (utf8Valid : List Nat → Bool)
    (handle_request : List Nat → Option (List Nat)) :
    LoopState → List (DeliveredEvent × IoOracle) → LoopState → Prop where
  | nil (st : LoopState) : GuardedRun utf8Valid handle_request st [] st
  | cons {st st' st'' : LoopState} {ev : DeliveredEvent} {o : IoOracle}
      {rest : List (DeliveredEvent × IoOracle)}
      (harm : ev.token = SERVER → st.listenerArmed = true)
      (hstep : stepLoop utf8Valid handle_request st ev o = .ok st')
      (hrest : GuardedRun utf8Valid handle_request st' rest st'') :
      GuardedRun utf8Valid handle_request st ((ev, o) :: rest) st''

/-- CLAIM C1 (code_bug). The claim says that on a readable event whose read
returns bytes and whose request yields no response payload the connection
stays in `AwaitingRequest` (readable re-armed, read buffer reset) and does
not enter `Flushing` with no write buffer. The code instead switches
interest to writable with `buf = None` and the read buffer also gone, and
the very next writable event panics on the missing write buffer. -/
theorem c1_no_payload_still_enters_flushing :
    SocketConnection.readable { SocketConnection.new with token := some 1 }
        (.readBytes [123]) (fun _ => true) (fun _ => none) =
      .ok (⟨none, none, some 1, ⟨false, true, true⟩⟩,
           ⟨1, ⟨false, true, true⟩, PollOpt.edgeOneshot, RegKind.reregister⟩) ∧
    SocketConnection.writable ⟨none, none, some 1, ⟨false, true, true⟩⟩ .wouldBlock =
      .error "called Option::unwrap() on a None value" :=
  ⟨rfl, rfl⟩

/-- CLAIM C4 (code_bug). The claim says a 0-byte read (orderly remote close)
transitions the connection to `Closed`. The code has no such transition:
the `Ok(Some(r))` branch does not test `r = 0`, so the accumulated buffer is
decoded and submitted to the request handler like a received request, the
connection switches to writable interest and is re-registered — never
closed, deregistered or removed. -/
theorem c4_eof_treated_as_request (v : List Nat → Bool)
    (h : List Nat → Option (List Nat)) :
    ∃ c' op, SocketConnection.readable { SocketConnection.new with token := some 1 }
        (.readBytes []) v h = .ok (c', op) ∧
      op.kind = RegKind.reregister ∧
      c'.interest.is_writable = true ∧
      c'.interest.is_readable = false ∧
      c'.buf = (if v [] then (h []).map ByteBuf.from_slice else none) := by
  refine ⟨_, _, rfl, rfl, rfl, rfl, ?_⟩
  cases hv : v [] <;> cases hh : h [] <;>
    simp [SocketConnection.readable, SocketConnection.new, hv, hh]

/-- CLAIM C5 (code_bug). The claim says a partially flushed write buffer is
retained (exactly the unsent remainder) and the connection stays `Flushing`.
The code treats any `Ok(Some(r))` from `try_write_buf` as a complete flush:
here only 1 of the 3 buffered bytes is written, yet the buffer is flipped
away (unsent remainder `[20, 30]` discarded) and interest switches back to
readable, so the unsent bytes can never be transmitted. -/
theorem c5_partial_write_loses_remainder :
    SocketConnection.writable ⟨some ⟨[10, 20, 30], 0⟩, none, some 1, ⟨false, true, true⟩⟩
        (.wroteBytes 1) =
      .ok (⟨none, some [], some 1, ⟨true, false, true⟩⟩,
           ⟨1, ⟨true, false, true⟩, PollOpt.edgeOneshot, RegKind.reregister⟩) ∧
    (ByteBuf.advance ⟨[10, 20, 30], 0⟩ 1).remaining = [20, 30] :=
  ⟨rfl, rfl⟩

/-- CLAIM C6 (code_bug). The claim says a hangup delivery in any state
transitions the connection to `Closed` and stops further processing. The
`ready` handler only tests `is_readable` and `is_writable`, so a hangup-only
delivery matches no branch: the server state is unchanged, no deregister
(or any other) call is issued, and the connection stays in the slab with an
open socket — it is merely starved because its one-shot registration was
consumed. -/
theorem c6_hangup_not_closed (s : RpcServer) (tok : Nat) (p : Option Unit)
    (r : TryReadResult) (w : TryWriteResult) (v : List Nat → Bool)
    (h : List Nat → Option (List Nat)) :
    s.ready tok EventSet.hupSet p r w v h = .ok (s, []) := rfl

/-- CLAIM C7 counterexample. The claim says a readiness event whose token is
absent from the slot table is ignored and not fatal; on the concrete event
`Token(5)`-readable against an empty slab the `ready` handler instead hits
the panicking slab index (modelled as `Except.error`), so the whole loop
dies. -/
theorem c7_stale_token_panics :
    RpcServer.ready ⟨[]⟩ 5 EventSet.readableSet none .wouldBlock .wouldBlock
        (fun _ => true) (fun _ => none) =
      .error "index out of bounds: vacant slab slot" := rfl

/-- CLAIM C9 counterexample. The claim says that after every event at least
one of the two buffers is populated. After this readable event (bytes read,
handler returns no payload) the resulting connection has `buf = none` and
`mut_buf = none`: both buffers are unpopulated. -/
theorem c9_both_buffers_empty_after_event :
    SocketConnection.readable ⟨none, some [], some 2, EventSet.hupSet⟩
        (.readBytes [104, 105]) (fun _ => true) (fun _ => none) =
      .ok (⟨none, none, some 2, ⟨false, true, true⟩⟩,
           ⟨2, ⟨false, true, true⟩, PollOpt.edgeOneshot, RegKind.reregister⟩) :=
  rfl

lemma slabInsert_token_ne_zero (l : List (Option SocketConnection)) (c : SocketConnection) :
    (slabInsert l c).2 ≠ 0 := by
  unfold slabInsert
  cases firstVacantIdx l <;> simp

lemma accept_ops_not_server {s : RpcServer} {p : Option Unit} {s' : RpcServer}
    {ops : List RegisterOp} (hacc : s.accept p = .ok (s', ops)) :
    ∀ op ∈ ops, op.token ≠ SERVER := by
  cases p with
  | none => simp [RpcServer.accept] at hacc
  | some u =>
    simp only [RpcServer.accept, Except.ok.injEq, Prod.mk.injEq] at hacc
    intro op hop
    rw [← hacc.2] at hop
    simp only [List.mem_singleton] at hop
    subst hop
    simpa [SERVER] using slabInsert_token_ne_zero s.connections SocketConnection.new

lemma rearmsListener_false {ops : List RegisterOp}
    (h : ∀ op ∈ ops, op.token ≠ SERVER) : rearmsListener ops = false := by
  induction ops with
  | nil => rfl
  | cons op rest ih =>
    simp only [rearmsListener, List.any_cons, Bool.or_eq_false_iff]
    refine ⟨by simpa using h op (by simp), ?_⟩
    exact ih fun x hx => h x (by simp [hx])

lemma ready_server_ops {s : RpcServer} {events : EventSet} {p : Option Unit}
    {r : TryReadResult} {w : TryWriteResult} {v : List Nat → Bool}
    {h : List Nat → Option (List Nat)} {s' : RpcServer} {ops : List RegisterOp}
    (hready : s.ready SERVER events p r w v h = .ok (s', ops)) :
    ∀ op ∈ ops, op.token ≠ SERVER := by
  by_cases hr : events.is_readable = true <;>
    by_cases hw : events.is_writable = true <;>
      simp only [RpcServer.ready, hr, hw, if_true, if_false, Bool.false_eq_true,
        reduceIte] at hready
  all_goals first
    | · cases hacc : s.accept p with
        | error e => rw [hacc] at hready; simp at hready
        | ok pr =>
          obtain ⟨s1, ops1⟩ := pr
          rw [hacc] at hready
          simp only [Except.ok.injEq, Prod.mk.injEq] at hready
          rw [← hready.2] at *
          exact accept_ops_not_server hacc
    | · simp only [Except.ok.injEq, Prod.mk.injEq] at hready
        rw [← hready.2]
        simp

lemma stepLoop_server_disarms {v : List Nat → Bool} {h : List Nat → Option (List Nat)}
    {st st' : LoopState} {ev : DeliveredEvent} {o : IoOracle}
    (htok : ev.token = SERVER)
    (hstep : stepLoop v h st ev o = .ok st') :
    st'.listenerArmed = false := by
  unfold stepLoop at hstep
  cases hready : st.server.ready ev.token ev.events o.pending o.r o.w v h with
  | error e => rw [hready] at hstep; simp at hstep
  | ok pr =>
    obtain ⟨s1, ops⟩ := pr
    rw [hready] at hstep
    simp only [Except.ok.injEq] at hstep
    rw [htok] at hready
    have hops := ready_server_ops hready
    have hbeq : (ev.token == SERVER) = true := by simp [htok]
    rw [← hstep]
    simp only [hbeq, if_true]
    exact rearmsListener_false hops

lemma stepLoop_nonserver_preserves {v : List Nat → Bool} {h : List Nat → Option (List Nat)}
    {st st' : LoopState} {ev : DeliveredEvent} {o : IoOracle}
    (htok : ev.token ≠ SERVER)
    (hstep : stepLoop v h st ev o = .ok st') :
    st'.listenerArmed = st.listenerArmed := by
  unfold stepLoop at hstep
  cases hready : st.server.ready ev.token ev.events o.pending o.r o.w v h with
  | error e => rw [hready] at hstep; simp at hstep
  | ok pr =>
    obtain ⟨s1, ops⟩ := pr
    rw [hready] at hstep
    simp only [Except.ok.injEq] at hstep
    have hbeq : (ev.token == SERVER) = false := by simp [htok]
    rw [← hstep]
    simp [hbeq]

lemma guardedRun_stays_disarmed {v : List Nat → Bool} {h : List Nat → Option (List Nat)}
    {st st' : LoopState} {evs : List (DeliveredEvent × IoOracle)}
    (hrun : GuardedRun v h st evs st') :
    st.listenerArmed = false →
      st'.listenerArmed = false ∧ ∀ p ∈ evs, p.1.token ≠ SERVER := by
  induction hrun with
  | nil st => exact fun hdis => ⟨hdis, by simp⟩
  | @cons st st' st'' ev o rest harm hstep hrest ih =>
    intro hdis
    have htok : ev.token ≠ SERVER := by
      intro hc
      rw [harm hc] at hdis
      exact absurd hdis (by decide)
    have hpres := stepLoop_nonserver_preserves htok hstep
    have := ih (hpres.trans hdis)
    refine ⟨this.1, ?_⟩
    intro p hp
    rcases List.mem_cons.mp hp with hp | hp
    · rw [hp]; exact htok
    · exact this.2 p hp

/-- CLAIM C2 (code_bug). The claim says every readiness delivery for the
listening socket leads to accepting a connection and re-arming the
listener's edge-triggered one-shot registration. `RpcServer::accept` only
registers the newly accepted socket (token ≥ 1) and never issues any
registration call for `SERVER`, so under one-shot semantics the listener is
disarmed by its first delivery and stays disarmed: in any guarded run
continuing from that point no further listener delivery can ever occur,
i.e. the server silently ceases to accept. -/
theorem c2_listener_never_rearmed (v : List Nat → Bool)
    (h : List Nat → Option (List Nat)) (st st₁ st₂ : LoopState)
    (ev : DeliveredEvent) (o : IoOracle)
    (evs : List (DeliveredEvent × IoOracle))
    (htok : ev.token = SERVER)
    (hstep : stepLoop v h st ev o = .ok st₁)
    (hrun : GuardedRun v h st₁ evs st₂) :
    st₁.listenerArmed = false ∧ st₂.listenerArmed = false ∧
      ∀ p ∈ evs, p.1.token ≠ SERVER := by
  have h1 := stepLoop_server_disarms htok hstep
  have h2 := guardedRun_stays_disarmed hrun h1
  exact ⟨h1, h2.1, h2.2⟩

/-- The loop state after the first listener delivery in the witness run of
claim C2: one accepted connection in slot 0 and the listener disarmed. -/
def c2State : LoopState :=
  ⟨⟨[some { SocketConnection.new with token := some 1 },
     none, none, none, none, none, none, none]⟩, false⟩

/-- Witness for claim C2's theorem at a concrete first listener delivery. -/
theorem c2_listener_never_rearmed_witness :
    (⟨SERVER, EventSet.readableSet⟩ : DeliveredEvent).token = SERVER ∧
    stepLoop (fun _ => true) (fun _ => none) ⟨RpcServer.start, true⟩
        ⟨SERVER, EventSet.readableSet⟩ ⟨some (), .wouldBlock, .wouldBlock⟩ =
      .ok c2State ∧
    (c2State.listenerArmed = false ∧ c2State.listenerArmed = false ∧
      ∀ p ∈ ([] : List (DeliveredEvent × IoOracle)), p.1.token ≠ SERVER) := by
  refine ⟨rfl, rfl, ?_⟩
  exact c2_listener_never_rearmed (fun _ => true) (fun _ => none)
    ⟨RpcServer.start, true⟩ c2State c2State ⟨SERVER, EventSet.readableSet⟩
    ⟨some (), .wouldBlock, .wouldBlock⟩ [] rfl rfl (GuardedRun.nil c2State)

/-- CLAIM C3 (code_bug). The claim says an I/O error on a non-blocking read
or write causes the connection to transition to `Closed` and be torn down
(deregistered, removed from the slot table, socket released). The code
swallows both errors: `writable` drops the taken write buffer and returns
`Ok` after re-registering the connection (never `deregister`), and
`readable` merely removes readable interest, drops the taken read buffer,
and likewise re-registers — the connection stays in the slab with its
socket open. -/
theorem c3_io_error_swallowed (c : SocketConnection) (b : ByteBuf)
    (mb : List Nat) (t : Nat) (v : List Nat → Bool)
    (h : List Nat → Option (List Nat))
    (hb : c.buf = some b) (hmb : c.mut_buf = some mb) (ht : c.token = some t) :
    SocketConnection.writable c .ioError =
      .ok ({ c with buf := none },
           ⟨t, c.interest, PollOpt.edgeOneshot, RegKind.reregister⟩) ∧
    SocketConnection.readable c .ioError v h =
      .ok ({ c with mut_buf := none, interest := c.interest.remove EventSet.readableSet },
           ⟨t, c.interest.remove EventSet.readableSet, PollOpt.edgeOneshot,
            RegKind.reregister⟩) := by
  constructor
  · simp [SocketConnection.writable, hb, ht]
  · simp [SocketConnection.readable, hmb, ht]

/-- Witness for claim C3's theorem on a concrete flushing connection. -/
theorem c3_io_error_swallowed_witness :
    (⟨some ⟨[1, 2], 0⟩, some [], some 1, EventSet.hupSet⟩ : SocketConnection).buf =
        some ⟨[1, 2], 0⟩ ∧
    SocketConnection.writable ⟨some ⟨[1, 2], 0⟩, some [], some 1, EventSet.hupSet⟩
        .ioError =
      .ok ({ (⟨some ⟨[1, 2], 0⟩, some [], some 1, EventSet.hupSet⟩ : SocketConnection)
              with buf := none },
           ⟨1, EventSet.hupSet, PollOpt.edgeOneshot, RegKind.reregister⟩) := by
  refine ⟨rfl, ?_⟩
  exact (c3_io_error_swallowed ⟨some ⟨[1, 2], 0⟩, some [], some 1, EventSet.hupSet⟩
    ⟨[1, 2], 0⟩ [] 1 (fun _ => true) (fun _ => none) rfl rfl rfl).1

/-- CLAIM C7 amended theorem. The claim said a readiness event whose token
misses the slot table is ignored; in fact any readable or writable delivery
for a non-listener token whose slab slot is vacant makes the `ready`
handler panic on the slab indexing, which aborts the whole event loop. -/
theorem c7_lookup_miss_is_fatal (s : RpcServer) (tok : Nat) (events : EventSet)
    (p : Option Unit) (r : TryReadResult) (w : TryWriteResult)
    (v : List Nat → Bool) (h : List Nat → Option (List Nat))
    (htok : tok ≠ SERVER)
    (hev : events.is_readable = true ∨ events.is_writable = true)
    (hmiss : s.connection tok = none) :
    s.ready tok events p r w v h = .error "index out of bounds: vacant slab slot" := by
  by_cases hr : events.is_readable = true
  · simp [RpcServer.ready, hr, htok, hmiss]
  · have hw : events.is_writable = true := hev.resolve_left hr
    simp [RpcServer.ready, hr, hw, htok, hmiss]

/-- Witness for claim C7's amended theorem at a concrete stale token. -/
theorem c7_lookup_miss_is_fatal_witness :
    (7 : Nat) ≠ SERVER ∧
    (EventSet.readableSet.is_readable = true ∨ EventSet.readableSet.is_writable = true) ∧
    RpcServer.connection ⟨[]⟩ 7 = none ∧
    RpcServer.ready ⟨[]⟩ 7 EventSet.readableSet none .wouldBlock .wouldBlock
        (fun _ => true) (fun _ => none) =
      .error "index out of bounds: vacant slab slot" := by
  refine ⟨by decide, Or.inl rfl, rfl, ?_⟩
  exact c7_lookup_miss_is_fatal ⟨[]⟩ 7 EventSet.readableSet none .wouldBlock .wouldBlock
    (fun _ => true) (fun _ => none) (by decide) (Or.inl rfl) rfl

/-- Modelled from the spec: the `ConnectionSlotTable` component of §4.2.
The implementation the repository uses for it is the external `slab` crate,
which is not under `src/` — only its caller `RpcServer` is — so the table
is modelled from the spec's contract: a dense token→connection mapping that
issues a fresh identity on insert (identities start at the offset 1, as in
`new_starting_at(Token(1), 8)`), reuses freed slots, and supports growth
beyond the initial reserved capacity without invalidating existing ids. -/
structure SlotTable (α : Type) where
  slots : List (Option α)
deriving DecidableEq, Repr

/-- Modelled from the spec: a fresh table with `reserve` vacant slots;
token `t ≥ 1` addresses slot `t - 1`. -/
def SlotTable.new_starting_at (α : Type) (reserve : Nat) : SlotTable α :=
  ⟨List.replicate reserve none⟩

/-- Modelled from the spec: insertion fills the first vacant slot, growing
the table by one fresh slot when every slot is occupied; the issued
identity is the slot index plus the offset 1, so insertion always
succeeds. -/
def SlotTable.insert {α : Type} (t : SlotTable α) (x : α) : SlotTable α × Nat :=
  match firstVacantIdx t.slots with
  | some i => (⟨t.slots.set i (some x)⟩, i + 1)
  | none => (⟨t.slots ++ [some x]⟩, t.slots.length + 1)

/-- Modelled from the spec: lookup of a token (`get_mut`); `none` is the
`NotFound` outcome. -/
def SlotTable.get {α : Type} (t : SlotTable α) (tok : Nat) : Option α :=
  if tok = 0 then none else t.slots.getD (tok - 1) none

/-- Sequentially insert a list of values, returning the final table and the
identities issued, in order. -/
def insertAllToks {α : Type} (t : SlotTable α) : List α → SlotTable α × List Nat
  | [] => (t, [])
  | x :: xs =>
    let p := t.insert x
    let q := insertAllToks p.1 xs
    (q.1, p.2 :: q.2)

lemma firstVacantIdx_lt {α : Type} {l : List (Option α)} {i : Nat}
    (h : firstVacantIdx l = some i) : i < l.length := by
  induction l generalizing i with
  | nil => simp [firstVacantIdx] at h
  | cons a rest ih =>
    cases a with
    | none =>
      simp only [firstVacantIdx, Option.some.injEq] at h
      subst h
      simp
    | some x =>
      simp only [firstVacantIdx, Option.map_eq_some'] at h
      obtain ⟨j, hj, rfl⟩ := h
      simpa using Nat.succ_lt_succ (ih hj)

lemma firstVacantIdx_vacant {α : Type} {l : List (Option α)} {i : Nat}
    (h : firstVacantIdx l = some i) : l[i]? = some none := by
  induction l generalizing i with
  | nil => simp [firstVacantIdx] at h
  | cons a rest ih =>
    cases a with
    | none =>
      simp only [firstVacantIdx, Option.some.injEq] at h
      subst h
      simp
    | some x =>
      simp only [firstVacantIdx, Option.map_eq_some'] at h
      obtain ⟨j, hj, rfl⟩ := h
      simpa using ih hj

lemma SlotTable.get_insert {α : Type} (t : SlotTable α) (x y : α) (tok : Nat)
    (h : t.get tok = some y) : (t.insert x).1.get tok = some y := by
  unfold SlotTable.get at h ⊢
  by_cases h0 : tok = 0
  · simp [h0] at h
  · simp only [h0, if_false] at h ⊢
    rw [List.getD_eq_getElem?_getD] at h
    have hsome : t.slots[tok - 1]? = some (some y) := by
      cases hq : t.slots[tok - 1]? with
      | none => rw [hq] at h; simp at h
      | some o =>
        rw [hq] at h
        simp only [Option.getD_some] at h
        rw [h]
    unfold SlotTable.insert
    cases hf : firstVacantIdx t.slots with
    | some i =>
      have hne : i ≠ tok - 1 := by
        intro he
        rw [he] at hf
        rw [firstVacantIdx_vacant hf] at hsome
        simp at hsome
      simp only
      rw [List.getD_eq_getElem?_getD, List.getElem?_set_ne hne, hsome]
      rfl
    | none =>
      have hlt : tok - 1 < t.slots.length := by
        by_contra hge
        rw [List.getElem?_eq_none (Nat.le_of_not_lt hge)] at hsome
        exact Option.noConfusion hsome
      simp only
      rw [List.getD_eq_getElem?_getD, List.getElem?_append, if_pos hlt, hsome]
      rfl

lemma SlotTable.get_insert_self {α : Type} (t : SlotTable α) (x : α) :
    (t.insert x).1.get (t.insert x).2 = some x := by
  unfold SlotTable.insert SlotTable.get
  cases hf : firstVacantIdx t.slots with
  | some i =>
    simp only [Nat.succ_ne_zero, if_false, Nat.add_sub_cancel]
    rw [List.getD_eq_getElem?_getD,
      List.getElem?_set_self (firstVacantIdx_lt hf)]
    rfl
  | none =>
    simp only [Nat.succ_ne_zero, if_false, Nat.add_sub_cancel]
    rw [List.getD_eq_getElem?_getD, List.getElem?_concat_length]
    rfl

lemma insertAllToks_preserves {α : Type} (l : List α) (t : SlotTable α)
    (tok : Nat) (y : α) (h : t.get tok = some y) :
    (insertAllToks t l).1.get tok = some y := by
  induction l generalizing t with
  | nil => exact h
  | cons x xs ih => exact ih _ (SlotTable.get_insert t x y tok h)

/-- CLAIM C8 (confirmed against the spec-modelled slot table). Inserting any
sequence of connections into the table created with reserve 8 and offset 1
always succeeds (insertion is total, growing past the reserved slots), and
the identity issued for the `i`-th insertion still looks up to exactly that
connection in the final table, whatever was inserted afterwards — in
particular for `i ≥ 8`, i.e. beyond the initial reserved capacity. -/
theorem c8_slot_table_growth (l : List SocketConnection) (i : Nat)
    (hi : i < l.length) :
    (insertAllToks (SlotTable.new_starting_at SocketConnection 8) l).1.get
        ((insertAllToks (SlotTable.new_starting_at SocketConnection 8) l).2.getD i 0) =
      some (l.get ⟨i, hi⟩) := by
  suffices hgen : ∀ (l : List SocketConnection) (t : SlotTable SocketConnection)
      (i : Nat) (hi : i < l.length),
      (insertAllToks t l).1.get ((insertAllToks t l).2.getD i 0) =
        some (l.get ⟨i, hi⟩) from
    hgen l _ i hi
  intro l
  induction l with
  | nil => intro t i hi; cases hi
  | cons x xs ih =>
    intro t i hi
    cases i with
    | zero =>
      simp only [insertAllToks, List.getD_cons_zero, List.get]
      exact insertAllToks_preserves xs _ _ x (SlotTable.get_insert_self t x)
    | succ j =>
      simp only [insertAllToks, List.getD_cons_succ, List.get]
      exact ih _ j (Nat.lt_of_succ_lt_succ hi)

/-- The nine distinct connections inserted in the witness of claim C8: one
more than the initial reserved capacity of 8 slots. -/
def c8List : List SocketConnection :=
  (List.range 9).map fun n => { SocketConnection.new with token := some n }

/-- Witness for claim C8's theorem: the ninth insertion exceeds the
reserved capacity of 8, and its identity still looks up to the ninth
connection. -/
theorem c8_slot_table_growth_witness :
    8 < c8List.length ∧
    (insertAllToks (SlotTable.new_starting_at SocketConnection 8) c8List).1.get
        ((insertAllToks (SlotTable.new_starting_at SocketConnection 8) c8List).2.getD 8 0) =
      some (c8List.get ⟨8, by decide⟩) :=
  ⟨by decide, c8_slot_table_growth c8List 8 (by decide)⟩

lemma readable_ok_cases {c : SocketConnection} {r : TryReadResult}
    {v : List Nat → Bool} {h : List Nat → Option (List Nat)}
    {c' : SocketConnection} {op : RegisterOp}
    (hok : SocketConnection.readable c r v h = .ok (c', op)) :
    c'.mut_buf = none ∨ (c'.buf = c.buf ∧ c'.mut_buf = c.mut_buf) := by
  unfold SocketConnection.readable at hok
  rcases hmb : c.mut_buf with _ | mb <;> rw [hmb] at hok
  · simp at hok
  rcases ht : c.token with _ | t <;> rw [ht] at hok
  · simp at hok
  simp only [Except.ok.injEq, Prod.mk.injEq] at hok
  obtain ⟨hceq, -⟩ := hok
  subst hceq
  cases r with
  | wouldBlock => exact Or.inr ⟨rfl, rfl⟩
  | readBytes bs => exact Or.inl rfl
  | ioError => exact Or.inl rfl

lemma writable_ok_cases {c : SocketConnection} {w : TryWriteResult}
    {c' : SocketConnection} {op : RegisterOp}
    (hok : SocketConnection.writable c w = .ok (c', op)) :
    c'.buf = none ∨ (c'.buf = c.buf ∧ c'.mut_buf = c.mut_buf) := by
  unfold SocketConnection.writable at hok
  rcases hb : c.buf with _ | b <;> rw [hb] at hok
  · simp at hok
  rcases ht : c.token with _ | t <;> rw [ht] at hok
  · simp at hok
  simp only [Except.ok.injEq, Prod.mk.injEq] at hok
  obtain ⟨hceq, -⟩ := hok
  subst hceq
  cases w with
  | wouldBlock => exact Or.inr ⟨rfl, rfl⟩
  | wroteBytes n => exact Or.inl rfl
  | ioError => exact Or.inl rfl

/-- CLAIM C9 amended theorem. The mutual-exclusion half of the claim holds:
if a connection does not have both buffers populated, then after any
successful readable or writable event it still does not; producing a
response consumes the read buffer and installs the response as the write
buffer; and any successful write (the code treats even a partial one as
completing the flush) consumes the write buffer and reinstalls an empty
read buffer. The dropped half is the claim that at least one buffer is
always populated afterwards: after a no-response request (see the
counterexample) or an I/O-error branch, both buffers are empty. -/
theorem c9_buffers_mutually_exclusive (c : SocketConnection)
    (r : TryReadResult) (w : TryWriteResult) (v : List Nat → Bool)
    (h : List Nat → Option (List Nat)) (n : Nat) (mb bs resp : List Nat)
    (c₁ c₂ c₃ c₄ : SocketConnection) (op₁ op₂ op₃ op₄ : RegisterOp)
    (hc : c.buf = none ∨ c.mut_buf = none) :
    (SocketConnection.readable c r v h = .ok (c₁, op₁) →
      c₁.buf = none ∨ c₁.mut_buf = none) ∧
    (SocketConnection.writable c w = .ok (c₂, op₂) →
      c₂.buf = none ∨ c₂.mut_buf = none) ∧
    (c.mut_buf = some mb → v (mb ++ bs) = true → h (mb ++ bs) = some resp →
      SocketConnection.readable c (.readBytes bs) v h = .ok (c₃, op₃) →
      c₃.buf = some (ByteBuf.from_slice resp) ∧ c₃.mut_buf = none) ∧
    (SocketConnection.writable c (.wroteBytes n) = .ok (c₄, op₄) →
      c₄.buf = none ∧ c₄.mut_buf = some []) := by
  refine ⟨?_, ?_, ?_, ?_⟩
  · intro hok
    rcases readable_ok_cases hok with hm | ⟨hb, hm⟩
    · exact Or.inr hm
    · rw [hb, hm]; exact hc
  · intro hok
    rcases writable_ok_cases hok with hb | ⟨hb, hm⟩
    · exact Or.inl hb
    · rw [hb, hm]; exact hc
  · intro hmb hv hh hok
    unfold SocketConnection.readable at hok
    rw [hmb] at hok
    rcases ht : c.token with _ | t <;> rw [ht] at hok
    · simp at hok
    · simp only [hv, hh, if_true, Except.ok.injEq, Prod.mk.injEq] at hok
      obtain ⟨hceq, -⟩ := hok
      rw [← hceq]
      exact ⟨rfl, rfl⟩
  · intro hok
    unfold SocketConnection.writable at hok
    rcases hb : c.buf with _ | b <;> rw [hb] at hok
    · simp at hok
    rcases ht : c.token with _ | t <;> rw [ht] at hok
    · simp at hok
    simp only [Except.ok.injEq, Prod.mk.injEq] at hok
    obtain ⟨hceq, -⟩ := hok
    rw [← hceq]
    exact ⟨rfl, rfl⟩

/-- The connection used by the witness of claim C9's amended theorem. -/
def c9Conn : SocketConnection := ⟨none, some [], some 1, EventSet.hupSet⟩

/-- The registration operation used by the witness of claim C9. -/
def c9Op : RegisterOp := ⟨1, EventSet.hupSet, PollOpt.edgeOneshot, RegKind.reregister⟩

/-- Witness for claim C9's amended theorem at a concrete connection whose
write buffer is empty (so the buffers are not both populated). -/
theorem c9_buffers_mutually_exclusive_witness :
    (c9Conn.buf = none ∨ c9Conn.mut_buf = none) ∧
    ((SocketConnection.readable c9Conn .wouldBlock (fun _ => true)
        (fun _ => some [9]) = .ok (c9Conn, c9Op) →
      c9Conn.buf = none ∨ c9Conn.mut_buf = none) ∧
     (SocketConnection.writable c9Conn .wouldBlock = .ok (c9Conn, c9Op) →
      c9Conn.buf = none ∨ c9Conn.mut_buf = none) ∧
     (c9Conn.mut_buf = some [] → true = true →
      (some [9] : Option (List Nat)) = some [9] →
      SocketConnection.readable c9Conn (.readBytes [5]) (fun _ => true)
          (fun _ => some [9]) = .ok (c9Conn, c9Op) →
      c9Conn.buf = some (ByteBuf.from_slice [9]) ∧ c9Conn.mut_buf = none) ∧
     (SocketConnection.writable c9Conn (.wroteBytes 0) = .ok (c9Conn, c9Op) →
      c9Conn.buf = none ∧ c9Conn.mut_buf = some [])) :=
  ⟨Or.inl rfl, c9_buffers_mutually_exclusive c9Conn .wouldBlock .wouldBlock
    (fun _ => true) (fun _ => some [9]) 0 [] [5] [9] c9Conn c9Conn c9Conn c9Conn
    c9Op c9Op c9Op c9Op (Or.inl rfl)⟩

/-- CLAIM C10 (confirmed). Both event handlers end, in every branch
(would-block, success and I/O error alike), with exactly one `reregister`
call for the connection's token carrying `PollOpt::edge() | oneshot()` and
the connection's updated interest set, and that interest set retains the
hangup flag the connection starts with (`SocketConnection::new` sets it and
no branch ever removes it). -/
theorem c10_every_branch_rearms (c : SocketConnection) (t : Nat) (mb : List Nat)
    (b : ByteBuf) (r : TryReadResult) (w : TryWriteResult)
    (v : List Nat → Bool) (h : List Nat → Option (List Nat))
    (ht : c.token = some t) (hhup : c.interest.is_hup = true) :
    (c.mut_buf = some mb →
      ∃ c' op, SocketConnection.readable c r v h = .ok (c', op) ∧
        op.kind = RegKind.reregister ∧ op.token = t ∧
        op.opts = PollOpt.edgeOneshot ∧ op.interest.is_hup = true ∧
        op.interest = c'.interest) ∧
    (c.buf = some b →
      ∃ c' op, SocketConnection.writable c w = .ok (c', op) ∧
        op.kind = RegKind.reregister ∧ op.token = t ∧
        op.opts = PollOpt.edgeOneshot ∧ op.interest.is_hup = true ∧
        op.interest = c'.interest) ∧
    SocketConnection.new.interest.is_hup = true := by
  refine ⟨?_, ?_, rfl⟩
  · intro hmb
    unfold SocketConnection.readable
    rw [hmb, ht]
    refine ⟨_, _, rfl, rfl, rfl, rfl, ?_, rfl⟩
    cases r <;>
      simp [EventSet.remove, EventSet.insert, EventSet.readableSet,
        EventSet.writableSet, hhup]
  · intro hb
    unfold SocketConnection.writable
    rw [hb, ht]
    refine ⟨_, _, rfl, rfl, rfl, rfl, ?_, rfl⟩
    cases w <;>
      simp [EventSet.remove, EventSet.insert, EventSet.readableSet,
        EventSet.writableSet, hhup]

/-- The connection used by the witness of claim C10: both hypotheses of the
theorem are satisfiable at once by giving it both buffers. -/
def c10Conn : SocketConnection := ⟨some ⟨[7], 0⟩, some [], some 3, EventSet.hupSet⟩

/-- Witness for claim C10's theorem at a concrete connection. -/
theorem c10_every_branch_rearms_witness :
    c10Conn.token = some 3 ∧ c10Conn.interest.is_hup = true ∧
    ((c10Conn.mut_buf = some [] →
      ∃ c' op, SocketConnection.readable c10Conn .wouldBlock (fun _ => true)
          (fun _ => none) = .ok (c', op) ∧
        op.kind = RegKind.reregister ∧ op.token = 3 ∧
        op.opts = PollOpt.edgeOneshot ∧ op.interest.is_hup = true ∧
        op.interest = c'.interest) ∧
     (c10Conn.buf = some ⟨[7], 0⟩ →
      ∃ c' op, SocketConnection.writable c10Conn .wouldBlock = .ok (c', op) ∧
        op.kind = RegKind.reregister ∧ op.token = 3 ∧
        op.opts = PollOpt.edgeOneshot ∧ op.interest.is_hup = true ∧
        op.interest = c'.interest) ∧
     SocketConnection.new.interest.is_hup = true) :=
  ⟨rfl, rfl, c10_every_branch_rearms c10Conn 3 [] ⟨[7], 0⟩ .wouldBlock .wouldBlock
    (fun _ => true) (fun _ => none) rfl rfl⟩
